import Mathlib

/-
Verification development for the price cache / fetch coalescer of
`src/app/api/btc-prices/route.js` (mining-calculator-vercel).

Modelling conventions:
* JavaScript numbers are modelled as rationals (`ℚ`); the source never
  produces NaN/Infinity on the paths the claims speak about, and the spec
  talks about plain numbers.
* JSON values are modelled by the inductive `JVal`; optional chaining
  (`a?.b`) is `jget`, `typeof x === 'number'` is `asNum`.
* The JS event loop is modelled by a step relation on an explicit server
  state: each `GET` call runs its synchronous prefix atomically (`getPhase1`)
  and the in-flight refresh settles in a separate atomic step (`settle`),
  which matches single-threaded cooperative scheduling with suspension
  points only at the `await`s.
* `Date` arithmetic (`getFullYear`/`setFullYear`/`toISOString`) is modelled
  with the proleptic Gregorian calendar at UTC offset 0 (the server
  environment), using the standard civil-from-days / days-from-civil
  conversions.
-/

namespace BtcRoute

/-- JSON-ish runtime values, as far as the route code inspects them. -/
inductive JVal where
  | num (q : ℚ)
  | str (s : String)
  | boolean (b : Bool)
  | arr (elems : List JVal)
  | obj (fields : List (String × JVal))
  | jnull
  | undefined

/-- Property access with optional chaining: `v?.k`.  Accessing a key on a
non-object (or a missing key) yields `undefined`. -/
def jget (v : JVal) (k : String) : JVal :=
  match v with
  | .obj fields =>
    match fields.lookup k with
    | some w => w
    | none => .undefined
  | _ => .undefined

/-- The JS test `typeof x === 'number'`: returns the number when it is one. -/
def asNum : JVal → Option ℚ
  | .num q => some q
  | _ => none

/-- Guard of the loop body of `pickClosestPrice`: an entry contributes iff it
is an array of length ≥ 2 whose first two elements are numbers; the
candidate is `(timestampMs, price)`. -/
def priceCand : JVal → Option (ℚ × ℚ)
  | .arr l =>
    if l.length ≥ 2 then
      match asNum (l.getD 0 .undefined), asNum (l.getD 1 .undefined) with
      | some ts, some price => some (ts, price)
      | _, _ => none
    else none
  | _ => none

/-- Guard of the loop body of `pickClosestCandleClose`: an entry contributes
iff it is an array of length ≥ 5 whose elements 0 (timeSec) and 4 (close)
are numbers; the candidate is `(timeSec, close)`. -/
def candleCand : JVal → Option (ℚ × ℚ)
  | .arr l =>
    if l.length ≥ 5 then
      match asNum (l.getD 0 .undefined), asNum (l.getD 4 .undefined) with
      | some timeSec, some close => some (timeSec, close)
      | _, _ => none
    else none
  | _ => none

/-- `Math.abs`, written so that it evaluates by kernel reduction
(the `abs` of Mathlib's order instances on `ℚ` does not). -/
def qabs (q : ℚ) : ℚ := if q < 0 then -q else q

/-- Shared loop of `pickClosestPrice` / `pickClosestCandleClose`.  The source
keeps two variables `closest` (value) and `closestDiff` (initially
`Infinity`); they are `null`/`Infinity` together, so the accumulator merges
them into one `Option (value × diff)`.  A candidate replaces the best only
on a strictly smaller `Math.abs(ts - target)`, so the first minimiser wins
ties. -/
def pickAux (f : JVal → Option (ℚ × ℚ)) (target : ℚ) :
    List JVal → Option (ℚ × ℚ) → Option (ℚ × ℚ)
  | [], best => best
  | e :: rest, best =>
    match f e with
    | none => pickAux f target rest best
    | some (ts, v) =>
      let diff := qabs (ts - target)
      match best with
      | none => pickAux f target rest (some (v, diff))
      | some (bv, bd) =>
        if diff < bd then pickAux f target rest (some (v, diff))
        else pickAux f target rest (some (bv, bd))

/-- `pickClosestPrice(prices, targetMs)` from the source. -/
def pickClosestPrice (prices : List JVal) (targetMs : ℚ) : Option ℚ :=
  (pickAux priceCand targetMs prices none).map Prod.fst

/-- `pickClosestCandleClose(candles, targetSec)` from the source. -/
def pickClosestCandleClose (candles : List JVal) (targetSec : ℚ) : Option ℚ :=
  (pickAux candleCand targetSec candles none).map Prod.fst

/-! ### Date model (proleptic Gregorian calendar, UTC) -/

/-- Civil date from a day count since 1970-01-01 (Howard Hinnant's
`civil_from_days`); returns `(year, month 1..12, day 1..31)`.  Integer `/`
is Euclidean division, which floors for the positive divisors used here. -/
def civilFromDays (z0 : Int) : Int × Int × Int :=
  let z := z0 + 719468
  let era := z / 146097
  let doe := z - era * 146097
  let yoe := (doe - doe / 1460 + doe / 36524 - doe / 146096) / 365
  let y := yoe + era * 400
  let doy := doe - (365 * yoe + yoe / 4 - yoe / 100)
  let mp := (5 * doy + 2) / 153
  let d := doy - (153 * mp + 2) / 5 + 1
  let m := mp + (if mp < 10 then 3 else -9)
  (y + (if m ≤ 2 then 1 else 0), m, d)

/-- Day count since 1970-01-01 from a civil date (Hinnant's
`days_from_civil`).  Out-of-range days (e.g. February 29 of a non-leap
year) roll over exactly as JS `MakeDay` normalisation does. -/
def daysFromCivil (y0 m d : Int) : Int :=
  let y := y0 - (if m ≤ 2 then 1 else 0)
  let era := y / 400
  let yoe := y - era * 400
  let doy := (153 * (m + (if m > 2 then -3 else 9)) + 2) / 5 + d - 1
  let doe := yoe * 365 + yoe / 4 - yoe / 100 + doy
  era * 146097 + doe - 719468

/-- Milliseconds in a day. -/
def msPerDay : Int := 86400000

/-- `Date.prototype.getFullYear` at UTC: the civil year of an epoch-ms
instant. -/
def getFullYear (t : Int) : Int :=
  (civilFromDays (t / msPerDay)).1

/-- `Date.prototype.setFullYear(y)` at UTC: keep month, day-of-month and
time-of-day, replace the year (normalising day overflow). -/
def setFullYear (t : Int) (newYear : Int) : Int :=
  let c := civilFromDays (t / msPerDay)
  daysFromCivil newYear c.2.1 c.2.2 * msPerDay + t % msPerDay

/-- The target instant computed by the pipeline:
`twoYearsAgo.setFullYear(twoYearsAgo.getFullYear() - 2)`. -/
def twoYearsAgoMs (nowMs : Int) : Int :=
  setFullYear nowMs (getFullYear nowMs - 2)

/-- Left-pad a natural number with zeros to the given width. -/
def pad (width : Nat) (n : Nat) : String :=
  let s := toString n
  String.mk (List.replicate (width - s.length) '0') ++ s

/-- `Date.prototype.toISOString` for instants in years 0..9999 (the only
ones the route can produce for realistic clocks). -/
def toISOString (t : Int) : String :=
  let c := civilFromDays (t / msPerDay)
  let ms := (t % msPerDay).toNat
  pad 4 c.1.toNat ++ "-" ++ pad 2 c.2.1.toNat ++ "-" ++ pad 2 c.2.2.toNat ++
    "T" ++ pad 2 (ms / 3600000) ++ ":" ++ pad 2 (ms % 3600000 / 60000) ++
    ":" ++ pad 2 (ms % 60000 / 1000) ++ "." ++ pad 3 (ms % 1000) ++ "Z"

/-- `Math.round`: round half toward positive infinity. -/
def jsRound (q : ℚ) : Int := ⌊q + 1 / 2⌋

/-! ### The upstream fetch pipeline (`fetchFromCoinGecko`) -/

/-- A settled HTTP response as the route inspects it: `res.ok`,
`res.status`, `res.statusText`, and the parsed JSON body. -/
structure HttpResp where
  ok : Bool
  status : Nat
  statusText : String
  body : JVal

/-- The environment a single pipeline run reads: whether
`COINGECKO_API_KEY` is set, the current clock, and the responses the three
upstream endpoints would deliver. -/
structure Env where
  hasApiKey : Bool
  nowMs : Int
  primaryRes : HttpResp
  histRes : HttpResp
  cbRes : HttpResp

/-- The success payload of the pipeline. -/
structure PricePayload where
  currentPriceUsd : Int
  historicalPriceUsd : Int
  historicalTargetDate : String
deriving DecidableEq, Repr

/-- Log entry for an upstream request the pipeline issued, with the request
parameters that appear in the URL. -/
inductive Req where
  | primaryReq
  | histReq (fromSec toSec : Int)
  | candleReq (startMs endMs : Int) (granularity : Nat)
deriving DecidableEq, Repr

/-- The secondary (CoinGecko historical) step, lines 96-119 of the route:
the value of the mutable `historicalPrice` after the `if (apiKey)` block
(`none` = still `null`), or the thrown error; plus the request log of the
step. -/
def histStep (env : Env) (targetSec : Int) (targetMs : ℚ) :
    Except String (Option ℚ) × List Req :=
  if env.hasApiKey then
    let fromSec := targetSec
    let toSec := targetSec + 14 * 86400
    let log := [Req.histReq fromSec toSec]
    if env.histRes.ok then
      match jget env.histRes.body "prices" with
      | .arr prices =>
        if prices.length > 0 then (.ok (pickClosestPrice prices targetMs), log)
        else (.ok none, log)
      | _ => (.ok none, log)
    else if env.histRes.status ≠ 401 then
      (.error ("CoinGecko historical price error: " ++ toString env.histRes.status ++
        " " ++ env.histRes.statusText), log)
    else (.ok none, log)
  else (.ok none, [])

/-- Build the final payload (lines 150-154 of the route). -/
def mkPayload (currentPrice historicalPrice : ℚ) (twoYearsAgo : Int) : PricePayload :=
  { currentPriceUsd := jsRound currentPrice
    historicalPriceUsd := jsRound historicalPrice
    historicalTargetDate := toISOString twoYearsAgo }

/-- The Coinbase candle fallback, lines 121-148 of the route, entered when
`historicalPrice` is not a positive number. -/
def candleFallback (env : Env) (currentPrice : ℚ) (twoYearsAgo targetSec : Int) :
    Except String PricePayload × List Req :=
  let startMs := twoYearsAgo
  let endMs := twoYearsAgo + 14 * 86400 * 1000
  (if env.cbRes.ok then
    match env.cbRes.body with
    | .arr candles =>
      if candles.length = 0 then
        .error "No candles returned from Coinbase for historical price"
      else
        match pickClosestCandleClose candles (targetSec : ℚ) with
        | some h =>
          if 0 < h then .ok (mkPayload currentPrice h twoYearsAgo)
          else .error "Unable to determine historical price from Coinbase candles payload"
        | none =>
          .error "Unable to determine historical price from Coinbase candles payload"
    | _ => .error "No candles returned from Coinbase for historical price"
  else
    .error ("Coinbase candles error: " ++ toString env.cbRes.status ++ " " ++
      env.cbRes.statusText),
   [Req.candleReq startMs endMs 86400])

/-- The whole pipeline `fetchFromCoinGecko`, returning its outcome together
with the log of upstream requests it issued. -/
def fetchFromCoinGecko (env : Env) : Except String PricePayload × List Req :=
  let log1 := [Req.primaryReq]
  if env.primaryRes.ok then
    match asNum (jget (jget env.primaryRes.body "bitcoin") "usd") with
    | some currentPrice =>
      if 0 < currentPrice then
        let twoYearsAgo := twoYearsAgoMs env.nowMs
        let targetSec := twoYearsAgo / 1000
        match histStep env targetSec (twoYearsAgo : ℚ) with
        | (.ok hist?, log2) =>
          match hist? with
          | some h =>
            if 0 < h then (.ok (mkPayload currentPrice h twoYearsAgo), log1 ++ log2)
            else
              let r := candleFallback env currentPrice twoYearsAgo targetSec
              (r.1, log1 ++ log2 ++ r.2)
          | none =>
            let r := candleFallback env currentPrice twoYearsAgo targetSec
            (r.1, log1 ++ log2 ++ r.2)
        | (.error msg, log2) => (.error msg, log1 ++ log2)
      else (.error "Invalid current price payload from CoinGecko", log1)
    | none => (.error "Invalid current price payload from CoinGecko", log1)
  else
    (.error ("CoinGecko current price error: " ++ toString env.primaryRes.status ++
      " " ++ env.primaryRes.statusText), log1)

/-! ### The HTTP handler `GET` and the module-global server state

The route keeps two module globals, `cachedValue` and `inFlight`.  A `GET`
call runs synchronously from its entry to the `await inFlight` (the cache
check, the in-flight check, and — for the first miss — the creation of the
in-flight promise); the event loop then lets other calls run.  `getPhase1`
is that atomic prefix.  The refresh promise settles in one later atomic
step, `settle` (the cache assignment and the `finally` that clears
`inFlight` are separated only by microtasks, which no other `GET` can
interleave with).  Pending refreshes are identified by a serial number so
that "the same in-flight operation" is expressible. -/

/-- The module global `cachedValue`: `{ payload, cachedAtMs }`. -/
structure CacheEntry where
  payload : PricePayload
  cachedAtMs : Int
deriving DecidableEq, Repr

/-- Server state: the two module globals, plus a serial counter for
refreshes and a log counter of pipeline executions started. -/
structure SrvState where
  cachedValue : Option CacheEntry
  inFlight : Option Nat
  nextId : Nat
  startedRuns : Nat
deriving DecidableEq, Repr

/-- What the synchronous prefix of one `GET` call leaves the caller with:
either an immediate cache hit, or awaiting the refresh with the given id. -/
inductive GetOutcome where
  | hit (p : PricePayload)
  | awaiting (id : Nat)
deriving DecidableEq, Repr

/-- The freshness test of lines 164-169:
`cachedValue && now - cachedValue.cachedAtMs < CACHE_TTL_SECONDS * 1000`. -/
def cacheFresh (ttlSeconds nowMs : Int) : Option CacheEntry → Bool
  | none => false
  | some e => nowMs - e.cachedAtMs < ttlSeconds * 1000

/-- Lines 173-182: join the pending refresh, or start a new one. -/
def startOrJoin (s : SrvState) : GetOutcome × SrvState :=
  match s.inFlight with
  | some id => (.awaiting id, s)
  | none =>
    (.awaiting s.nextId,
      { cachedValue := s.cachedValue, inFlight := some s.nextId,
        nextId := s.nextId + 1, startedRuns := s.startedRuns + 1 })

/-- The synchronous prefix of `GET` (lines 160-185 up to `await`). -/
def getPhase1 (ttlSeconds nowMs : Int) (s : SrvState) : GetOutcome × SrvState :=
  match s.cachedValue with
  | some e =>
    if nowMs - e.cachedAtMs < ttlSeconds * 1000 then (.hit e.payload, s)
    else startOrJoin s
  | none => startOrJoin s

/-- The refresh promise settling (lines 176-181): on success store
`{ payload, cachedAtMs: Date.now() }`; in all cases the `finally` clears
`inFlight`. -/
def settle (s : SrvState) (r : Except String PricePayload) (doneMs : Int) : SrvState :=
  match r with
  | .ok p => { s with cachedValue := some ⟨p, doneMs⟩, inFlight := none }
  | .error _ => { s with inFlight := none }

/-- Several `GET` calls arriving (at the given clock readings) with no
settle step in between, i.e. concurrently. -/
def arriveMany (ttlSeconds : Int) : List Int → SrvState → List GetOutcome × SrvState
  | [], s => ([], s)
  | t :: ts, s =>
    let p := getPhase1 ttlSeconds t s
    let q := arriveMany ttlSeconds ts p.2
    (p.1 :: q.1, q.2)

/-- An HTTP response as the route builds it: status, JSON body (success
payload or `{ error }`), and the two headers it sets. -/
structure HttpOut where
  status : Nat
  okBody : Option PricePayload
  errBody : Option String
  cacheControl : String
  xcache : String
deriving DecidableEq, Repr

/-- `okJson(payload, cacheStatus)` from the source. -/
def okJson (ttlSeconds : Int) (p : PricePayload) (cacheStatus : String) : HttpOut :=
  { status := 200, okBody := some p, errBody := none
    cacheControl := "public, s-maxage=" ++ toString ttlSeconds ++
      ", stale-while-revalidate=86400"
    xcache := cacheStatus }

/-- `errJson(message, 502)` from the source (default cacheStatus MISS). -/
def errJson (message : String) : HttpOut :=
  { status := 502, okBody := none, errBody := some message
    cacheControl := "public, s-maxage=30, stale-while-revalidate=300"
    xcache := "MISS" }

/-- The catch clause's `e?.message || ...` fallback: an empty message is
falsy, so it is replaced by the generic string (`String(e)` of an `Error`
with an empty message prints as `Error`). -/
def errMessage (m : String) : String :=
  if m = "" then "Server error fetching CoinGecko prices: Error" else m

/-- How one caller's `GET` invocation resolves to an HTTP response: a hit
returns the cached payload immediately; an awaiting caller resolves with
the refresh outcome `r` (lines 184-189).  The function is total: every
refresh failure becomes a 502 response, never an escaping exception. -/
def respond (ttlSeconds : Int) (o : GetOutcome) (r : Except String PricePayload) : HttpOut :=
  match o with
  | .hit p => okJson ttlSeconds p "HIT"
  | .awaiting _ =>
    match r with
    | .ok p => okJson ttlSeconds p "MISS"
    | .error m => errJson (errMessage m)

/-! ### Specification-side predicate for the closest-candidate selection -/

/-- Value `v` belongs to the first candidate (in list order) whose timestamp
minimises the absolute difference to `target`: every earlier candidate is
strictly farther, every later one at least as far. -/
def IsFirstClosest (target : ℚ) (cands : List (ℚ × ℚ)) (v : ℚ) : Prop :=
  ∃ pre ts post, cands = pre ++ (ts, v) :: post ∧
    (∀ p ∈ pre, |ts - target| < |p.1 - target|) ∧
    (∀ p ∈ post, |ts - target| ≤ |p.1 - target|)

/-! ### Lemmas about the selection loop -/

lemma qabs_eq_abs (q : ℚ) : qabs q = |q| := by
  unfold qabs
  by_cases h : q < 0
  · simp [h, abs_of_neg h]
  · simp [h, abs_of_nonneg (not_lt.1 h)]

lemma pickAux_some_spec (f : JVal → Option (ℚ × ℚ)) (t : ℚ) :
    ∀ (l : List JVal) (bv bd : ℚ),
      (pickAux f t l (some (bv, bd)) = some (bv, bd) ∧
        ∀ p ∈ l.filterMap f, bd ≤ |p.1 - t|) ∨
      (∃ pre ts v post, pickAux f t l (some (bv, bd)) = some (v, |ts - t|) ∧
        l.filterMap f = pre ++ (ts, v) :: post ∧ |ts - t| < bd ∧
        (∀ p ∈ pre, |ts - t| < |p.1 - t|) ∧
        (∀ p ∈ post, |ts - t| ≤ |p.1 - t|)) := by
  intro l
  induction l with
  | nil => intro bv bd; exact .inl ⟨rfl, by simp⟩
  | cons e rest ih =>
    intro bv bd
    rcases hfe : f e with _ | ⟨ts0, v0⟩
    · simpa [pickAux, hfe, List.filterMap_cons] using ih bv bd
    · by_cases hlt : |ts0 - t| < bd
      · rcases ih v0 |ts0 - t| with ⟨heq, hall⟩ |
          ⟨pre, ts, v, post, heq, hsplit, hlt2, hpre, hpost⟩
        · refine .inr ⟨[], ts0, v0, rest.filterMap f, ?_, ?_, hlt, ?_, ?_⟩
          · simpa [pickAux, hfe, qabs_eq_abs, hlt] using heq
          · simp [List.filterMap_cons, hfe]
          · simp
          · exact hall
        · refine .inr ⟨(ts0, v0) :: pre, ts, v, post, ?_, ?_, lt_trans hlt2 hlt, ?_, hpost⟩
          · simpa [pickAux, hfe, qabs_eq_abs, hlt] using heq
          · simp [List.filterMap_cons, hfe, hsplit]
          · intro p hp
            rcases List.mem_cons.1 hp with hp | hp
            · simpa [hp] using hlt2
            · exact hpre p hp
      · rcases ih bv bd with ⟨heq, hall⟩ |
          ⟨pre, ts, v, post, heq, hsplit, hlt2, hpre, hpost⟩
        · refine .inl ⟨?_, ?_⟩
          · simpa [pickAux, hfe, qabs_eq_abs, hlt] using heq
          · intro p hp
            rw [List.filterMap_cons, hfe] at hp
            rcases List.mem_cons.1 hp with hp | hp
            · simpa [hp] using not_lt.1 hlt
            · exact hall p hp
        · refine .inr ⟨(ts0, v0) :: pre, ts, v, post, ?_, ?_, hlt2, ?_, hpost⟩
          · simpa [pickAux, hfe, qabs_eq_abs, hlt] using heq
          · simp [List.filterMap_cons, hfe, hsplit]
          · intro p hp
            rcases List.mem_cons.1 hp with hp | hp
            · simpa [hp] using lt_of_lt_of_le hlt2 (not_lt.1 hlt)
            · exact hpre p hp

lemma pickAux_none_spec (f : JVal → Option (ℚ × ℚ)) (t : ℚ) :
    ∀ l : List JVal,
      (pickAux f t l none = none ∧ l.filterMap f = []) ∨
      (∃ pre ts v post, pickAux f t l none = some (v, |ts - t|) ∧
        l.filterMap f = pre ++ (ts, v) :: post ∧
        (∀ p ∈ pre, |ts - t| < |p.1 - t|) ∧
        (∀ p ∈ post, |ts - t| ≤ |p.1 - t|)) := by
  intro l
  induction l with
  | nil => exact .inl ⟨rfl, rfl⟩
  | cons e rest ih =>
    rcases hfe : f e with _ | ⟨ts0, v0⟩
    · simpa [pickAux, hfe, List.filterMap_cons] using ih
    · rcases pickAux_some_spec f t rest v0 |ts0 - t| with ⟨heq, hall⟩ |
        ⟨pre, ts, v, post, heq, hsplit, hlt2, hpre, hpost⟩
      · refine .inr ⟨[], ts0, v0, rest.filterMap f, ?_, ?_, ?_, hall⟩
        · simpa [pickAux, hfe, qabs_eq_abs] using heq
        · simp [List.filterMap_cons, hfe]
        · simp
      · refine .inr ⟨(ts0, v0) :: pre, ts, v, post, ?_, ?_, ?_, hpost⟩
        · simpa [pickAux, hfe, qabs_eq_abs] using heq
        · simp [List.filterMap_cons, hfe, hsplit]
        · intro p hp
          rcases List.mem_cons.1 hp with hp | hp
          · simpa [hp] using hlt2
          · exact hpre p hp

lemma pickAux_filter (f : JVal → Option (ℚ × ℚ)) (t : ℚ) :
    ∀ (l : List JVal) (acc : Option (ℚ × ℚ)),
      pickAux f t l acc = pickAux f t (l.filter fun e => (f e).isSome) acc := by
  intro l
  induction l with
  | nil => intro acc; rfl
  | cons e rest ih =>
    intro acc
    rcases hfe : f e with _ | ⟨ts0, v0⟩
    · simpa [pickAux, List.filter_cons, hfe] using ih acc
    · have hkeep : (f e).isSome = true := by simp [hfe]
      rcases acc with _ | ⟨bv, bd⟩
      · simpa [pickAux, List.filter_cons, hkeep, hfe] using ih _
      · by_cases h : |ts0 - t| < bd
        · simpa [pickAux, List.filter_cons, hkeep, hfe, qabs_eq_abs, h] using ih _
        · simpa [pickAux, List.filter_cons, hkeep, hfe, qabs_eq_abs, h] using ih _

lemma pick_first_closest (f : JVal → Option (ℚ × ℚ)) (t : ℚ) (l : List JVal) (v : ℚ)
    (h : (pickAux f t l none).map Prod.fst = some v) :
    IsFirstClosest t (l.filterMap f) v := by
  rcases pickAux_none_spec f t l with ⟨heq, _⟩ |
    ⟨pre, ts, v', post, heq, hsplit, hpre, hpost⟩
  · rw [heq] at h; cases h
  · rw [heq] at h
    simp only [Option.map_some', Option.some.injEq] at h
    cases h
    exact ⟨pre, ts, post, hsplit, hpre, hpost⟩

lemma pick_none_iff (f : JVal → Option (ℚ × ℚ)) (t : ℚ) (l : List JVal) :
    (pickAux f t l none).map Prod.fst = none ↔ l.filterMap f = [] := by
  rcases pickAux_none_spec f t l with ⟨heq, hnil⟩ |
    ⟨pre, ts, v, post, heq, hsplit, _, _⟩
  · simp [heq, hnil]
  · simp [heq, hsplit]

/-! ### Claims C3 and C10: the closest-candidate selection -/

/-- Price list realising the spec's example: candidates at offsets
-5000, -10, +10, +9999 ms from the target, with values 1, 2, 3, 4. -/
def exC3 : List JVal :=
  [.arr [.num (-5000), .num 1], .arr [.num (-10), .num 2],
   .arr [.num 10, .num 3], .arr [.num 9999, .num 4]]

/-- Price list with an exact tie at offsets -10 and +10. -/
def exC3tie : List JVal :=
  [.arr [.num (-10), .num 7], .arr [.num 10, .num 8]]

/-- List mixing well-formed and ill-formed entries: a string, a too-short
array, a bare number, a good candidate, and an array whose price is not a
number. -/
def exC10 : List JVal :=
  [.str "x", .arr [.num 1], .num 5, .arr [.num 1, .num 2],
   .arr [.num 1, .str "p"]]

/-- C3: for every candidate list and target, `pickClosestPrice` and
`pickClosestCandleClose` return the value of the well-formed candidate
whose timestamp minimises the absolute difference to the target, and on an
exact tie the candidate encountered first in list order wins (every earlier
candidate is strictly farther, every later one at least as far — stable
iteration, no re-sorting). -/
theorem c3_pick_closest_first_min (l : List JVal) (t : ℚ) :
    (∀ v, pickClosestPrice l t = some v →
      IsFirstClosest t (l.filterMap priceCand) v) ∧
    (∀ v, pickClosestCandleClose l t = some v →
      IsFirstClosest t (l.filterMap candleCand) v) :=
  ⟨fun v h => pick_first_closest priceCand t l v h,
   fun v h => pick_first_closest candleCand t l v h⟩

/-- Witness for C3 at the spec's example offsets: among offsets
{-5000, -10, +10, +9999} the candidate at -10 (value 2) is chosen, and at
a ±10 tie the first-encountered candidate (value 7) is chosen. -/
theorem c3_witness :
    pickClosestPrice exC3 0 = some 2 ∧
    IsFirstClosest 0 (exC3.filterMap priceCand) 2 ∧
    pickClosestPrice exC3tie 0 = some 7 ∧
    IsFirstClosest 0 (exC3tie.filterMap priceCand) 7 :=
  ⟨by with_unfolding_all decide,
   (c3_pick_closest_first_min exC3 0).1 2 (by with_unfolding_all decide),
   by with_unfolding_all decide,
   (c3_pick_closest_first_min exC3tie 0).1 7 (by with_unfolding_all decide)⟩

/-- C10: the selection functions are total and ill-formed entries (not
arrays, too short, or with non-numeric timestamp or value fields) are
skipped and never influence the result: filtering them away first does not
change the outcome, and the result is `none` exactly when the list holds
no well-formed candidate. -/
theorem c10_pick_total (l : List JVal) (t : ℚ) :
    pickClosestPrice l t =
      pickClosestPrice (l.filter fun e => (priceCand e).isSome) t ∧
    pickClosestCandleClose l t =
      pickClosestCandleClose (l.filter fun e => (candleCand e).isSome) t ∧
    (pickClosestPrice l t = none ↔ l.filterMap priceCand = []) ∧
    (pickClosestCandleClose l t = none ↔ l.filterMap candleCand = []) := by
  refine ⟨?_, ?_, pick_none_iff priceCand t l, pick_none_iff candleCand t l⟩
  · unfold pickClosestPrice
    rw [pickAux_filter priceCand t l none]
  · unfold pickClosestCandleClose
    rw [pickAux_filter candleCand t l none]

/-- Witness for C10 on a list mixing well-formed and ill-formed entries. -/
theorem c10_witness :
    pickClosestPrice exC10 3 =
      pickClosestPrice (exC10.filter fun e => (priceCand e).isSome) 3 ∧
    (pickClosestPrice [JVal.str "x"] 3 = none ↔
      ([JVal.str "x"] : List JVal).filterMap priceCand = []) :=
  ⟨(c10_pick_total exC10 3).1, (c10_pick_total [JVal.str "x"] 3).2.2.1⟩

/-! ### Lemmas about the server state machine -/

/-- A missed `GET` with no refresh in flight starts one: the caller awaits
the new refresh id and the state records one more started pipeline run. -/
lemma getPhase1_start (ttl now : Int) (s : SrvState)
    (hn : s.inFlight = none)
    (hmiss : cacheFresh ttl now s.cachedValue = false) :
    getPhase1 ttl now s = (.awaiting s.nextId,
      { cachedValue := s.cachedValue, inFlight := some s.nextId,
        nextId := s.nextId + 1, startedRuns := s.startedRuns + 1 }) := by
  rcases hc : s.cachedValue with _ | e
  · simp [getPhase1, hc, startOrJoin, hn]
  · rw [hc] at hmiss
    simp only [cacheFresh, decide_eq_false_iff_not] at hmiss
    simp [getPhase1, hc, hmiss, startOrJoin, hn]

/-- While a refresh is in flight and the cache stays stale, every arriving
`GET` joins the same refresh and the state does not change. -/
lemma arriveMany_joined (ttl : Int) (ts : List Int) (s : SrvState) (id : Nat)
    (hi : s.inFlight = some id)
    (hmiss : ∀ t ∈ ts, cacheFresh ttl t s.cachedValue = false) :
    arriveMany ttl ts s = (ts.map fun _ => .awaiting id, s) := by
  induction ts with
  | nil => rfl
  | cons t rest ih =>
    have h1 : getPhase1 ttl t s = (.awaiting id, s) := by
      rcases hc : s.cachedValue with _ | e
      · simp [getPhase1, hc, startOrJoin, hi]
      · have := hmiss t (List.mem_cons_self t rest)
        rw [hc] at this
        simp only [cacheFresh, decide_eq_false_iff_not] at this
        simp [getPhase1, hc, this, startOrJoin, hi]
    have h2 := ih (fun u hu => hmiss u (List.mem_cons_of_mem t hu))
    simp [arriveMany, h1, h2]

/-! ### Claim C1: single-flight coalescing -/

/-- C1: when two or more `GET` calls arrive concurrently (no settle in
between) while no refresh is in flight and none of them sees a fresh cache
entry, exactly one upstream pipeline execution starts, every caller awaits
that same refresh, and all of them resolve to the same response. -/
theorem c1_single_flight (ttl : Int) (ts : List Int) (s : SrvState)
    (hn : s.inFlight = none)
    (hmiss : ∀ t ∈ ts, cacheFresh ttl t s.cachedValue = false)
    (hlen : 2 ≤ ts.length) :
    (arriveMany ttl ts s).2.startedRuns = s.startedRuns + 1 ∧
    (arriveMany ttl ts s).2.inFlight = some s.nextId ∧
    (∀ o ∈ (arriveMany ttl ts s).1, o = .awaiting s.nextId) ∧
    (∀ (r : Except String PricePayload) (o₁ o₂ : GetOutcome),
      o₁ ∈ (arriveMany ttl ts s).1 → o₂ ∈ (arriveMany ttl ts s).1 →
      respond ttl o₁ r = respond ttl o₂ r) := by
  match ts, hlen with
  | t :: rest, _ =>
    have hm1 : cacheFresh ttl t s.cachedValue = false :=
      hmiss t (List.mem_cons_self t rest)
    have h1 := getPhase1_start ttl t s hn hm1
    have h2 := arriveMany_joined ttl rest
      { cachedValue := s.cachedValue, inFlight := some s.nextId,
        nextId := s.nextId + 1, startedRuns := s.startedRuns + 1 } s.nextId
      rfl (fun u hu => hmiss u (List.mem_cons_of_mem t hu))
    have hall : ∀ o ∈ (arriveMany ttl (t :: rest) s).1, o = .awaiting s.nextId := by
      intro o ho
      simp only [arriveMany, h1, h2] at ho
      rcases List.mem_cons.1 ho with ho | ho
      · exact ho
      · rcases List.mem_map.1 ho with ⟨u, _, hu⟩
        exact hu.symm
    refine ⟨?_, ?_, hall, ?_⟩
    · simp [arriveMany, h1, h2]
    · simp [arriveMany, h1, h2]
    · intro r o₁ o₂ h₁ h₂
      rw [hall o₁ h₁, hall o₂ h₂]

/-- Witness for C1: three concurrent calls on an empty cache start exactly
one refresh (run counter 4 → 5) and all await refresh id 2. -/
theorem c1_witness :
    (arriveMany 900 [5, 6, 7] ⟨none, none, 2, 4⟩).2.startedRuns = 5 ∧
    ∀ o ∈ (arriveMany 900 [5, 6, 7] (⟨none, none, 2, 4⟩ : SrvState)).1,
      o = .awaiting 2 := by
  have h := c1_single_flight 900 [5, 6, 7] ⟨none, none, 2, 4⟩ rfl
    (by intro t ht; rfl) (by decide)
  exact ⟨h.1, h.2.2.1⟩

/-! ### Claim C2: fresh cache hit -/

/-- C2: whenever a cache entry exists and `now − cachedAtMs < TTL·1000`,
`GET` returns the stored payload unchanged with status 200 and diagnostic
header HIT, performs no upstream fetch (the state, including the count of
started pipeline runs, is untouched), and in particular a second call any
time the entry is still fresh — e.g. at `t + TTL − 1s` — returns the same
cached payload again. -/
theorem c2_cache_hit (ttl now : Int) (s : SrvState) (e : CacheEntry)
    (hc : s.cachedValue = some e)
    (hfresh : now - e.cachedAtMs < ttl * 1000) :
    getPhase1 ttl now s = (.hit e.payload, s) ∧
    (∀ r, respond ttl (.hit e.payload) r = okJson ttl e.payload "HIT") ∧
    (okJson ttl e.payload "HIT").status = 200 ∧
    (okJson ttl e.payload "HIT").okBody = some e.payload ∧
    (okJson ttl e.payload "HIT").xcache = "HIT" ∧
    (∀ t2, t2 - e.cachedAtMs < ttl * 1000 →
      arriveMany ttl [now, t2] s = ([.hit e.payload, .hit e.payload], s)) := by
  have h1 : getPhase1 ttl now s = (.hit e.payload, s) := by
    simp [getPhase1, hc, hfresh]
  refine ⟨h1, fun r => rfl, rfl, rfl, rfl, fun t2 h2 => ?_⟩
  have h2' : getPhase1 ttl t2 s = (.hit e.payload, s) := by
    simp [getPhase1, hc, h2]
  simp [arriveMany, h1, h2']

/-- Witness for C2 with the default TTL of 900 s: a cache populated at
`t = 1000000` serves both a call at `t` and a call at `t + 900s − 1s`
from the cache, with status 200 and header HIT. -/
theorem c2_witness :
    getPhase1 900 1000000 ⟨some ⟨⟨65001, 20000, "d"⟩, 1000000⟩, none, 3, 5⟩ =
      (.hit ⟨65001, 20000, "d"⟩,
        ⟨some ⟨⟨65001, 20000, "d"⟩, 1000000⟩, none, 3, 5⟩) ∧
    (okJson 900 (⟨65001, 20000, "d"⟩ : PricePayload) "HIT").status = 200 ∧
    arriveMany 900 [1000000, 1000000 + 900 * 1000 - 1000]
      ⟨some ⟨⟨65001, 20000, "d"⟩, 1000000⟩, none, 3, 5⟩ =
      ([.hit ⟨65001, 20000, "d"⟩, .hit ⟨65001, 20000, "d"⟩],
        ⟨some ⟨⟨65001, 20000, "d"⟩, 1000000⟩, none, 3, 5⟩) := by
  have h := c2_cache_hit 900 1000000
    ⟨some ⟨⟨65001, 20000, "d"⟩, 1000000⟩, none, 3, 5⟩
    ⟨⟨65001, 20000, "d"⟩, 1000000⟩ rfl (by decide)
  exact ⟨h.1, h.2.2.1, h.2.2.2.2.2 (1000000 + 900 * 1000 - 1000) (by decide)⟩

/-! ### Claim C8: the settle invariant -/

/-- C8: after a refresh settles the in-flight slot is empty again whatever
the outcome; the cache entry is replaced — atomically, stamped with the
completion time — exactly when the refresh succeeded, and is untouched by
a failure. -/
theorem c8_settle_invariant (s : SrvState) (r : Except String PricePayload)
    (doneMs : Int) :
    (settle s r doneMs).inFlight = none ∧
    (∀ p, r = .ok p → (settle s r doneMs).cachedValue = some ⟨p, doneMs⟩) ∧
    (∀ m, r = .error m → (settle s r doneMs).cachedValue = s.cachedValue) := by
  rcases r with m | p
  · refine ⟨rfl, ?_, ?_⟩
    · intro q h; cases h
    · intro m' h; rfl
  · refine ⟨rfl, ?_, ?_⟩
    · intro q h; cases h; rfl
    · intro m' h; cases h

/-- Witness for C8 at a concrete success and a concrete failure. -/
theorem c8_witness :
    (settle ⟨none, some 7, 8, 3⟩ (.ok ⟨65001, 20000, "d"⟩) 4242).inFlight = none ∧
    (settle ⟨none, some 7, 8, 3⟩ (.ok ⟨65001, 20000, "d"⟩) 4242).cachedValue =
      some ⟨⟨65001, 20000, "d"⟩, 4242⟩ ∧
    (settle ⟨some ⟨⟨1, 1, "a"⟩, 9⟩, some 7, 8, 3⟩ (.error "boom") 4242).inFlight = none ∧
    (settle ⟨some ⟨⟨1, 1, "a"⟩, 9⟩, some 7, 8, 3⟩ (.error "boom") 4242).cachedValue =
      some ⟨⟨1, 1, "a"⟩, 9⟩ :=
  ⟨(c8_settle_invariant ⟨none, some 7, 8, 3⟩ (.ok ⟨65001, 20000, "d"⟩) 4242).1,
   (c8_settle_invariant ⟨none, some 7, 8, 3⟩ (.ok ⟨65001, 20000, "d"⟩) 4242).2.1
     ⟨65001, 20000, "d"⟩ rfl,
   (c8_settle_invariant ⟨some ⟨⟨1, 1, "a"⟩, 9⟩, some 7, 8, 3⟩ (.error "boom") 4242).1,
   (c8_settle_invariant ⟨some ⟨⟨1, 1, "a"⟩, 9⟩, some 7, 8, 3⟩ (.error "boom") 4242).2.2
     "boom" rfl⟩

/-! ### Claim C7: failed refreshes become 502 responses and are not fatal

`respond` is a total function, so in the model a refresh failure can only
become the 502 response below — it never escapes the handler as an
exception. -/

/-- C7: a caller whose awaited refresh fails receives status 502 with a
JSON `{ error }` body, the short 30-second shared-cache `Cache-Control`
header and the diagnostic `x-cache` header; and afterwards the service
answers normally: the settled state has no refresh in flight, a later
stale-cache call starts a fresh pipeline run, and its success is served
with status 200. -/
theorem c7_error_response (ttl : Int) (id : Nat) (m : String) (s : SrvState)
    (doneMs now : Int)
    (hmiss : cacheFresh ttl now (settle s (.error m) doneMs).cachedValue = false) :
    respond ttl (.awaiting id) (.error m) = errJson (errMessage m) ∧
    (errJson (errMessage m)).status = 502 ∧
    (errJson (errMessage m)).errBody = some (errMessage m) ∧
    (errJson (errMessage m)).okBody = none ∧
    (errJson (errMessage m)).cacheControl =
      "public, s-maxage=30, stale-while-revalidate=300" ∧
    (errJson (errMessage m)).xcache = "MISS" ∧
    (settle s (.error m) doneMs).inFlight = none ∧
    getPhase1 ttl now (settle s (.error m) doneMs) =
      (.awaiting s.nextId,
        { cachedValue := s.cachedValue, inFlight := some s.nextId,
          nextId := s.nextId + 1, startedRuns := s.startedRuns + 1 }) ∧
    (∀ p, respond ttl (.awaiting s.nextId) (.ok p) = okJson ttl p "MISS") ∧
    (∀ p, (okJson ttl p "MISS").status = 200) := by
  refine ⟨rfl, rfl, rfl, rfl, rfl, rfl, rfl, ?_, fun p => rfl, fun p => rfl⟩
  have h := getPhase1_start ttl now (settle s (.error m) doneMs) rfl hmiss
  simpa [settle] using h

/-- Witness for C7: a failure with message "boom" yields the 502 error
response, and the service then serves a successful refresh normally. -/
theorem c7_witness :
    respond 900 (.awaiting 7) (.error "boom") = errJson (errMessage "boom") ∧
    (errJson (errMessage "boom")).status = 502 ∧
    (settle ⟨none, some 7, 8, 3⟩ (.error "boom") 50).inFlight = none ∧
    getPhase1 900 60 (settle ⟨none, some 7, 8, 3⟩ (.error "boom") 50) =
      (.awaiting 8, ⟨none, some 8, 9, 4⟩) ∧
    (okJson 900 (⟨65001, 20000, "d"⟩ : PricePayload) "MISS").status = 200 := by
  have h := c7_error_response 900 7 "boom" ⟨none, some 7, 8, 3⟩ 50 60 rfl
  exact ⟨h.1, h.2.1, h.2.2.2.2.2.2.1, h.2.2.2.2.2.2.2.1,
    h.2.2.2.2.2.2.2.2.2 ⟨65001, 20000, "d"⟩⟩

/-! ### Claim C4: HTTP 401 from the secondary fetch is skippable, any other
non-success status is fatal -/

/-- C4: with an API key configured and a valid primary price, a secondary
(CoinGecko historical) response with HTTP 401 does not fail the pipeline:
the run continues into the Coinbase candle fallback and its outcome is the
fallback's outcome.  Any other non-success secondary status (e.g. 500)
fails the run with the historical-price upstream error, and the candle
fallback request is never issued. -/
theorem c4_secondary_status (env : Env) (cp : ℚ)
    (hkey : env.hasApiKey = true)
    (hpok : env.primaryRes.ok = true)
    (hcp : asNum (jget (jget env.primaryRes.body "bitcoin") "usd") = some cp)
    (hpos : 0 < cp)
    (hnotok : env.histRes.ok = false) :
    (env.histRes.status = 401 →
      fetchFromCoinGecko env =
        ((candleFallback env cp (twoYearsAgoMs env.nowMs)
            (twoYearsAgoMs env.nowMs / 1000)).1,
         [Req.primaryReq,
          Req.histReq (twoYearsAgoMs env.nowMs / 1000)
            (twoYearsAgoMs env.nowMs / 1000 + 14 * 86400),
          Req.candleReq (twoYearsAgoMs env.nowMs)
            (twoYearsAgoMs env.nowMs + 14 * 86400 * 1000) 86400])) ∧
    (env.histRes.status ≠ 401 →
      (fetchFromCoinGecko env).1 =
        .error ("CoinGecko historical price error: " ++
          toString env.histRes.status ++ " " ++ env.histRes.statusText) ∧
      ∀ a b g, Req.candleReq a b g ∉ (fetchFromCoinGecko env).2) := by
  constructor
  · intro h401
    have hh : histStep env (twoYearsAgoMs env.nowMs / 1000) ((twoYearsAgoMs env.nowMs : Int) : ℚ) =
        (.ok none,
         [Req.histReq (twoYearsAgoMs env.nowMs / 1000)
            (twoYearsAgoMs env.nowMs / 1000 + 14 * 86400)]) := by
      simp [histStep, hkey, hnotok, h401]
    simp [fetchFromCoinGecko, hpok, hcp, hpos, hh, candleFallback]
  · intro hne
    have hh : histStep env (twoYearsAgoMs env.nowMs / 1000) ((twoYearsAgoMs env.nowMs : Int) : ℚ) =
        (.error ("CoinGecko historical price error: " ++
          toString env.histRes.status ++ " " ++ env.histRes.statusText),
         [Req.histReq (twoYearsAgoMs env.nowMs / 1000)
            (twoYearsAgoMs env.nowMs / 1000 + 14 * 86400)]) := by
      simp [histStep, hkey, hnotok, hne]
    constructor
    · simp [fetchFromCoinGecko, hpok, hcp, hpos, hh]
    · intro a b g
      simp [fetchFromCoinGecko, hpok, hcp, hpos, hh]

/-- A primary response body `{bitcoin: {usd: 65000}}`. -/
def primaryOkBody : JVal := .obj [("bitcoin", .obj [("usd", .num 65000)])]

/-- One daily candle at the target second with close 20000. -/
def candleList : List JVal :=
  [.arr [.num 1636928000, .num 1, .num 1, .num 1, .num 20000]]

/-- A valid Coinbase candle body: one daily candle at the target second with
close 20000. -/
def candleOkBody : JVal := .arr candleList

/-- Environment with an API key whose secondary fetch is refused with 401. -/
def envC4a : Env :=
  { hasApiKey := true, nowMs := 1700000000000
    primaryRes := ⟨true, 200, "OK", primaryOkBody⟩
    histRes := ⟨false, 401, "Unauthorized", .jnull⟩
    cbRes := ⟨true, 200, "OK", candleOkBody⟩ }

/-- Environment with an API key whose secondary fetch fails with 500. -/
def envC4b : Env :=
  { hasApiKey := true, nowMs := 1700000000000
    primaryRes := ⟨true, 200, "OK", primaryOkBody⟩
    histRes := ⟨false, 500, "Internal Server Error", .jnull⟩
    cbRes := ⟨true, 200, "OK", candleOkBody⟩ }

/-- Witness for C4: under a 401 the run is exactly the candle fallback and
the candle request is issued; under a 500 the run fails with the upstream
error and no candle request appears in the log. -/
theorem c4_witness :
    fetchFromCoinGecko envC4a =
      ((candleFallback envC4a 65000 (twoYearsAgoMs envC4a.nowMs)
          (twoYearsAgoMs envC4a.nowMs / 1000)).1,
       [Req.primaryReq,
        Req.histReq (twoYearsAgoMs envC4a.nowMs / 1000)
          (twoYearsAgoMs envC4a.nowMs / 1000 + 14 * 86400),
        Req.candleReq (twoYearsAgoMs envC4a.nowMs)
          (twoYearsAgoMs envC4a.nowMs + 14 * 86400 * 1000) 86400]) ∧
    (fetchFromCoinGecko envC4b).1 =
      .error ("CoinGecko historical price error: " ++
        toString envC4b.histRes.status ++ " " ++ envC4b.histRes.statusText) ∧
    Req.candleReq (twoYearsAgoMs envC4b.nowMs)
      (twoYearsAgoMs envC4b.nowMs + 14 * 86400 * 1000) 86400 ∉
      (fetchFromCoinGecko envC4b).2 := by
  have ha := (c4_secondary_status envC4a 65000 rfl rfl
    (by simp [envC4a, primaryOkBody, jget, asNum, List.lookup])
    (by norm_num) rfl).1 rfl
  have hb := (c4_secondary_status envC4b 65000 rfl rfl
    (by simp [envC4b, primaryOkBody, jget, asNum, List.lookup])
    (by norm_num) rfl).2 (by decide)
  exact ⟨ha, hb.1, hb.2 _ _ _⟩

/-! ### Claim C5: the Coinbase candle fallback -/

/-- C5: whenever the secondary path produced no usable historical price
(`historicalPrice` still `null` or not positive), the pipeline issues the
candle request over the same 14-day window starting at the target instant
with daily (86400 s) granularity and its outcome is the candle fallback's
outcome; on a well-formed response the close of the candle nearest the
target becomes the payload's historical price, while an empty list, a
non-list body, or a nearest close that is missing or not positive fails
the run with an upstream error. -/
theorem c5_candle_fallback (env : Env) (cp : ℚ) (histPrice? : Option ℚ)
    (hlog : List Req)
    (hpok : env.primaryRes.ok = true)
    (hcp : asNum (jget (jget env.primaryRes.body "bitcoin") "usd") = some cp)
    (hpos : 0 < cp)
    (hh : histStep env (twoYearsAgoMs env.nowMs / 1000)
      ((twoYearsAgoMs env.nowMs : Int) : ℚ) = (.ok histPrice?, hlog))
    (hnuse : histPrice? = none ∨ ∃ h0, histPrice? = some h0 ∧ h0 ≤ 0) :
    fetchFromCoinGecko env =
      ((candleFallback env cp (twoYearsAgoMs env.nowMs)
          (twoYearsAgoMs env.nowMs / 1000)).1,
       Req.primaryReq :: hlog ++
        [Req.candleReq (twoYearsAgoMs env.nowMs)
          (twoYearsAgoMs env.nowMs + 14 * 86400 * 1000) 86400]) ∧
    (∀ candles h0, env.cbRes.ok = true → env.cbRes.body = .arr candles →
      candles ≠ [] →
      pickClosestCandleClose candles ((twoYearsAgoMs env.nowMs / 1000 : Int) : ℚ) =
        some h0 →
      0 < h0 →
      (fetchFromCoinGecko env).1 =
        .ok (mkPayload cp h0 (twoYearsAgoMs env.nowMs))) ∧
    (env.cbRes.ok = true → env.cbRes.body = .arr [] →
      (fetchFromCoinGecko env).1 =
        .error "No candles returned from Coinbase for historical price") ∧
    (env.cbRes.ok = true → (∀ candles, env.cbRes.body ≠ .arr candles) →
      (fetchFromCoinGecko env).1 =
        .error "No candles returned from Coinbase for historical price") ∧
    (∀ candles, env.cbRes.ok = true → env.cbRes.body = .arr candles →
      candles ≠ [] →
      (pickClosestCandleClose candles
          ((twoYearsAgoMs env.nowMs / 1000 : Int) : ℚ) = none ∨
        ∃ h0, pickClosestCandleClose candles
          ((twoYearsAgoMs env.nowMs / 1000 : Int) : ℚ) = some h0 ∧ h0 ≤ 0) →
      (fetchFromCoinGecko env).1 =
        .error "Unable to determine historical price from Coinbase candles payload") := by
  have hmain : fetchFromCoinGecko env =
      ((candleFallback env cp (twoYearsAgoMs env.nowMs)
          (twoYearsAgoMs env.nowMs / 1000)).1,
       Req.primaryReq :: hlog ++
        [Req.candleReq (twoYearsAgoMs env.nowMs)
          (twoYearsAgoMs env.nowMs + 14 * 86400 * 1000) 86400]) := by
    rcases hnuse with hn | ⟨h0, hs, hle⟩
    · subst hn
      simp [fetchFromCoinGecko, hpok, hcp, hpos, hh, candleFallback]
    · subst hs
      simp [fetchFromCoinGecko, hpok, hcp, hpos, hh, not_lt.2 hle, candleFallback]
  have hfst : (fetchFromCoinGecko env).1 =
      (candleFallback env cp (twoYearsAgoMs env.nowMs)
        (twoYearsAgoMs env.nowMs / 1000)).1 := by
    rw [hmain]
  refine ⟨hmain, ?_, ?_, ?_, ?_⟩
  · intro candles h0 hcbok hbody hne hpick hposh
    rw [hfst]
    simp [candleFallback, hcbok, hbody, hpick, hposh, hne]
  · intro hcbok hbody
    rw [hfst]
    simp [candleFallback, hcbok, hbody]
  · intro hcbok hnel
    rw [hfst]
    rcases hb : env.cbRes.body with q | s | b | elems | fields | _ | _
    · simp [candleFallback, hcbok, hb]
    · simp [candleFallback, hcbok, hb]
    · simp [candleFallback, hcbok, hb]
    · exact absurd hb (hnel elems)
    · simp [candleFallback, hcbok, hb]
    · simp [candleFallback, hcbok, hb]
    · simp [candleFallback, hcbok, hb]
  · intro candles hcbok hbody hne hbad
    rw [hfst]
    rcases hbad with hn | ⟨h0, hs, hle⟩
    · simp [candleFallback, hcbok, hbody, hne, hn]
    · simp [candleFallback, hcbok, hbody, hne, hs, not_lt.2 hle]

/-- Environment with no API key configured (so no secondary historical
price is ever obtained) and a valid public-candle response. -/
def envC5 : Env :=
  { hasApiKey := false, nowMs := 1700000000000
    primaryRes := ⟨true, 200, "OK", primaryOkBody⟩
    histRes := ⟨true, 200, "OK", .jnull⟩
    cbRes := ⟨true, 200, "OK", candleOkBody⟩ }

/-- Witness for C5: with no historical price from the secondary path the
pipeline issues the candle request over the 14-day window at 86400 s
granularity, and the payload's historical price comes from the candle
close. -/
theorem c5_witness :
    fetchFromCoinGecko envC5 =
      ((candleFallback envC5 65000 (twoYearsAgoMs envC5.nowMs)
          (twoYearsAgoMs envC5.nowMs / 1000)).1,
       [Req.primaryReq,
        Req.candleReq (twoYearsAgoMs envC5.nowMs)
          (twoYearsAgoMs envC5.nowMs + 14 * 86400 * 1000) 86400]) ∧
    (fetchFromCoinGecko envC5).1 =
      .ok (mkPayload 65000 20000 (twoYearsAgoMs envC5.nowMs)) := by
  have h := c5_candle_fallback envC5 65000 none [] rfl
    (by simp [envC5, primaryOkBody, jget, asNum, List.lookup]) (by norm_num)
    (by rfl) (.inl rfl)
  have hpick : pickClosestCandleClose candleList
      ((twoYearsAgoMs envC5.nowMs / 1000 : Int) : ℚ) = some 20000 := by
    simp [pickClosestCandleClose, pickAux, candleCand, asNum, candleList]
  exact ⟨by simpa using h.1,
    h.2.1 candleList 20000 rfl rfl (by simp [candleList]) hpick (by norm_num)⟩

/-! ### Inversion: what a successful pipeline run must look like -/

lemma candleFallback_ok_inv (env : Env) (cp : ℚ) (t2 tsec : Int)
    (p : PricePayload)
    (h : (candleFallback env cp t2 tsec).1 = .ok p) :
    ∃ hp, 0 < hp ∧ p = mkPayload cp hp t2 ∧
      ∃ candles, env.cbRes.body = .arr candles ∧
        pickClosestCandleClose candles (tsec : ℚ) = some hp := by
  by_cases hok : env.cbRes.ok
  · rcases hb : env.cbRes.body with q | s | b | candles | fields | _ | _
    · simp [candleFallback, hok, hb] at h
    · simp [candleFallback, hok, hb] at h
    · simp [candleFallback, hok, hb] at h
    · by_cases hne : candles.length = 0
      · simp [candleFallback, hok, hb, hne] at h
      · rcases hp : pickClosestCandleClose candles (tsec : ℚ) with _ | h0
        · simp [candleFallback, hok, hb, hne, hp] at h
        · by_cases hposh : 0 < h0
          · refine ⟨h0, hposh, ?_, candles, rfl, hp⟩
            have := h
            simp [candleFallback, hok, hb, hne, hp, hposh] at this
            exact this.symm
          · simp [candleFallback, hok, hb, hne, hp, hposh] at h
    · simp [candleFallback, hok, hb] at h
    · simp [candleFallback, hok, hb] at h
    · simp [candleFallback, hok, hb] at h
  · simp [candleFallback, hok] at h

lemma fetch_ok_inv (env : Env) (p : PricePayload)
    (h : (fetchFromCoinGecko env).1 = .ok p) :
    ∃ cp, asNum (jget (jget env.primaryRes.body "bitcoin") "usd") = some cp ∧
      0 < cp ∧ ∃ hp, 0 < hp ∧ p = mkPayload cp hp (twoYearsAgoMs env.nowMs) ∧
        ((histStep env (twoYearsAgoMs env.nowMs / 1000)
            ((twoYearsAgoMs env.nowMs : Int) : ℚ)).1 = .ok (some hp) ∨
          ∃ candles, env.cbRes.body = .arr candles ∧
            pickClosestCandleClose candles
              ((twoYearsAgoMs env.nowMs / 1000 : Int) : ℚ) = some hp) := by
  by_cases hok : env.primaryRes.ok
  · rcases hcp : asNum (jget (jget env.primaryRes.body "bitcoin") "usd") with _ | cp
    · simp [fetchFromCoinGecko, hok, hcp] at h
    · by_cases hpos : 0 < cp
      · refine ⟨cp, rfl, hpos, ?_⟩
        rcases hh : histStep env (twoYearsAgoMs env.nowMs / 1000)
          ((twoYearsAgoMs env.nowMs : Int) : ℚ) with ⟨r, hlog⟩
        rcases r with msg | histPrice?
        · simp [fetchFromCoinGecko, hok, hcp, hpos, hh] at h
        · rcases histPrice? with _ | h0
          · have h' : (candleFallback env cp (twoYearsAgoMs env.nowMs)
                (twoYearsAgoMs env.nowMs / 1000)).1 = .ok p := by
              simpa [fetchFromCoinGecko, hok, hcp, hpos, hh] using h
            obtain ⟨hp, hp0, hpe, candles, hcb, hpick⟩ :=
              candleFallback_ok_inv env cp _ _ p h'
            exact ⟨hp, hp0, hpe, .inr ⟨candles, hcb, hpick⟩⟩
          · by_cases hp0 : 0 < h0
            · refine ⟨h0, hp0, ?_, .inl rfl⟩
              have := h
              simp [fetchFromCoinGecko, hok, hcp, hpos, hh, hp0] at this
              exact this.symm
            · have h' : (candleFallback env cp (twoYearsAgoMs env.nowMs)
                  (twoYearsAgoMs env.nowMs / 1000)).1 = .ok p := by
                simpa [fetchFromCoinGecko, hok, hcp, hpos, hh, hp0] using h
              obtain ⟨hp, hp0', hpe, candles, hcb, hpick⟩ :=
                candleFallback_ok_inv env cp _ _ p h'
              exact ⟨hp, hp0', hpe, .inr ⟨candles, hcb, hpick⟩⟩
      · simp [fetchFromCoinGecko, hok, hcp, hpos] at h
  · simp [fetchFromCoinGecko, hok] at h

/-! ### Claim C6: rounding and ISO-8601 serialisation -/

/-- C6: every payload a successful pipeline run returns carries the fetched
prices rounded to the nearest integer (`Math.round`, half up) and the
computed target instant serialised as an ISO-8601 timestamp:
`currentPriceUsd` is the rounded primary price, and `historicalPriceUsd`
is the rounded historical price actually fetched — the value the secondary
step picked, or the close of the candle nearest the target chosen from the
candle response body. -/
theorem c6_rounding_iso (env : Env) (p : PricePayload)
    (h : (fetchFromCoinGecko env).1 = .ok p) :
    ∃ cp hp, asNum (jget (jget env.primaryRes.body "bitcoin") "usd") = some cp ∧
      0 < cp ∧ 0 < hp ∧
      ((histStep env (twoYearsAgoMs env.nowMs / 1000)
          ((twoYearsAgoMs env.nowMs : Int) : ℚ)).1 = .ok (some hp) ∨
        ∃ candles, env.cbRes.body = .arr candles ∧
          pickClosestCandleClose candles
            ((twoYearsAgoMs env.nowMs / 1000 : Int) : ℚ) = some hp) ∧
      p.currentPriceUsd = jsRound cp ∧
      p.historicalPriceUsd = jsRound hp ∧
      p.historicalTargetDate = toISOString (twoYearsAgoMs env.nowMs) := by
  obtain ⟨cp, hcp, hpos, hp, hp0, hpe, hsrc⟩ := fetch_ok_inv env p h
  exact ⟨cp, hp, hcp, hpos, hp0, hsrc, by rw [hpe]; rfl, by rw [hpe]; rfl,
    by rw [hpe]; rfl⟩

/-- A primary response body `{bitcoin: {usd: 65000.7}}`. -/
def primaryFracBody : JVal :=
  .obj [("bitcoin", .obj [("usd", .num (650007 / 10))])]

/-- Environment delivering the fractional primary price 65000.7 and a valid
candle fallback. -/
def envC6 : Env :=
  { hasApiKey := false, nowMs := 1700000000000
    primaryRes := ⟨true, 200, "OK", primaryFracBody⟩
    histRes := ⟨true, 200, "OK", .jnull⟩
    cbRes := ⟨true, 200, "OK", candleOkBody⟩ }

set_option maxRecDepth 4000 in
/-- Witness for C6: the primary price 65000.7 is returned as 65001, the
candle close 20000 as 20000, and the target instant is serialised in
ISO-8601 form. -/
theorem c6_witness :
    (fetchFromCoinGecko envC6).1 =
      .ok ⟨65001, 20000, toISOString (twoYearsAgoMs envC6.nowMs)⟩ ∧
    toISOString (twoYearsAgoMs envC6.nowMs) = "2021-11-14T22:13:20.000Z" ∧
    (∃ cp hp, asNum (jget (jget envC6.primaryRes.body "bitcoin") "usd") = some cp ∧
      0 < cp ∧ 0 < hp ∧
      ((histStep envC6 (twoYearsAgoMs envC6.nowMs / 1000)
          ((twoYearsAgoMs envC6.nowMs : Int) : ℚ)).1 = .ok (some hp) ∨
        ∃ candles, envC6.cbRes.body = .arr candles ∧
          pickClosestCandleClose candles
            ((twoYearsAgoMs envC6.nowMs / 1000 : Int) : ℚ) = some hp) ∧
      (65001 : Int) = jsRound cp ∧
      (20000 : Int) = jsRound hp ∧
      toISOString (twoYearsAgoMs envC6.nowMs) =
        toISOString (twoYearsAgoMs envC6.nowMs)) := by
  have heval : (fetchFromCoinGecko envC6).1 =
      .ok ⟨65001, 20000, toISOString (twoYearsAgoMs envC6.nowMs)⟩ := by
    with_unfolding_all rfl
  have h := c6_rounding_iso envC6 _ heval
  exact ⟨heval, by with_unfolding_all rfl, by simpa using h⟩

/-! ### Claim C9: payload bounds

The claim as frozen says both prices are integers ≥ 1.  The code only
checks that the fetched prices are positive numbers and then rounds them:
a primary price of 0.3 passes the `> 0` check and `Math.round` turns it
into 0, so a successful payload can carry `currentPriceUsd = 0`.  The
provable bound is ≥ 0. -/

/-- Environment delivering the tiny but positive primary price 0.3. -/
def envC9 : Env :=
  { hasApiKey := false, nowMs := 1700000000000
    primaryRes := ⟨true, 200, "OK", .obj [("bitcoin", .obj [("usd", .num (3 / 10))])]⟩
    histRes := ⟨true, 200, "OK", .jnull⟩
    cbRes := ⟨true, 200, "OK", candleOkBody⟩ }

/-- Environment whose primary body has a non-numeric price. -/
def envC9b : Env :=
  { hasApiKey := false, nowMs := 1700000000000
    primaryRes := ⟨true, 200, "OK", .obj [("bitcoin", .obj [("usd", .str "NaN")])]⟩
    histRes := ⟨true, 200, "OK", .jnull⟩
    cbRes := ⟨true, 200, "OK", candleOkBody⟩ }

set_option maxRecDepth 4000 in
/-- Counterexample to C9 as stated: with the primary price 0.3 (a positive
number, so the validity check passes) the pipeline succeeds, yet the
returned `currentPriceUsd` is 0, not ≥ 1. -/
theorem c9_counterexample :
    (fetchFromCoinGecko envC9).1 =
      .ok ⟨0, 20000, toISOString (twoYearsAgoMs envC9.nowMs)⟩ ∧
    ¬(1 ≤ (0 : Int)) :=
  ⟨by with_unfolding_all rfl, by decide⟩

/-- C9 (amended): every successful payload carries integer prices ≥ 0 (the
fetched prices are checked positive, but `Math.round` can take a price
below 0.5 to 0), and the pipeline fails with the invalid-payload
`UpstreamError` whenever the primary response carries no numeric price or
a non-positive one. -/
theorem c9_payload_bounds (env : Env) :
    (∀ p, (fetchFromCoinGecko env).1 = .ok p →
      0 ≤ p.currentPriceUsd ∧ 0 ≤ p.historicalPriceUsd) ∧
    (env.primaryRes.ok = true →
      (asNum (jget (jget env.primaryRes.body "bitcoin") "usd") = none ∨
        ∃ q, asNum (jget (jget env.primaryRes.body "bitcoin") "usd") = some q ∧
          q ≤ 0) →
      (fetchFromCoinGecko env).1 =
        .error "Invalid current price payload from CoinGecko") := by
  constructor
  · intro p h
    obtain ⟨cp, hcp, hpos, hp, hp0, hpe, _⟩ := fetch_ok_inv env p h
    subst hpe
    constructor
    · show 0 ≤ jsRound cp
      unfold jsRound
      refine Int.le_floor.2 ?_
      push_cast
      linarith
    · show 0 ≤ jsRound hp
      unfold jsRound
      refine Int.le_floor.2 ?_
      push_cast
      linarith
  · intro hok hbad
    rcases hbad with hn | ⟨q, hq, hle⟩
    · simp [fetchFromCoinGecko, hok, hn]
    · simp [fetchFromCoinGecko, hok, hq, not_lt.2 hle]

/-- Witness for the amended C9: a successful run has both prices ≥ 0, and a
non-numeric primary price fails with the invalid-payload error. -/
theorem c9_witness :
    (0 ≤ (65000 : Int) ∧ 0 ≤ (20000 : Int)) ∧
    (fetchFromCoinGecko envC9b).1 =
      .error "Invalid current price payload from CoinGecko" := by
  constructor
  · have heval : (fetchFromCoinGecko envC5).1 =
        .ok ⟨65000, 20000, toISOString (twoYearsAgoMs envC5.nowMs)⟩ := by
      with_unfolding_all rfl
    exact (c9_payload_bounds envC5).1 _ heval
  · exact (c9_payload_bounds envC9b).2 rfl
      (.inl (by simp [envC9b, jget, asNum, List.lookup]))

end BtcRoute
